import Mathlib

/-!
Verification of the PokerStars hand-history parser
(`src/poker/room/pokerstars.py`) against its natural-language
specification.

The development shallowly embeds the Python module.  Python `re` patterns
are embedded through a small backtracking regular-expression engine over
`List Char` whose matching order (leftmost match, greedy/lazy quantifier
preference, ordered alternation) mirrors CPython's `re` module on the
pattern shapes the parser uses; each pattern of the source is transcribed
into the engine's AST.  Exact decimal amounts (Python `Decimal`) are
embedded as exact scaled integers (`Dec`, the coefficient/exponent pair
of a `Decimal`, with `Dec.toRat` its value in `ℚ`).  Parts of the
repository that are not under `src/`
(the `handhistory` base classes, the section splitter, the closed
constant vocabularies) are modelled from the specification, and each such
definition carries a doc comment saying so.
-/

namespace PokerStars

/-! ## Character classes and Python string helpers -/

/-- Python `\s` on the ASCII inputs the parser handles: the characters
`str.strip` and `str.split()` treat as whitespace. -/
def isSpaceChar (c : Char) : Bool :=
  c = ' ' || c = '\t' || c = '\n' || c = '\r' || c = '\x0b' || c = '\x0c'

/-- Python `\w` (underscore, letters, digits) on ASCII input. -/
def isWordChar (c : Char) : Bool :=
  c.isAlpha || c.isDigit || c = '_'

/-- Python `\d`. -/
def isDigitChar (c : Char) : Bool := c.isDigit

/-- Python `.` without `re.DOTALL`: any character but a newline. -/
def isAnyNoNl (c : Char) : Bool := c != '\n'

/-- Python `[A-Z]`. -/
def isUpperAZ (c : Char) : Bool := 'A' ≤ c && c ≤ 'Z'

/-- Python `\S`. -/
def isNonSpace (c : Char) : Bool := !isSpaceChar c

/-- Python `str.strip()` on a character list: whitespace removed from both
ends. -/
def pyStripL (l : List Char) : List Char :=
  ((l.dropWhile isSpaceChar).reverse.dropWhile isSpaceChar).reverse

/-- Python `str.strip()`. -/
def pyStrip (s : String) : String := String.mk (pyStripL s.toList)

/-- Python `str.split('\n')`: pieces between newlines, empties kept. -/
def pySplitNlL : List Char → List (List Char)
  | [] => [[]]
  | c :: t =>
    let rest := pySplitNlL t
    if c = '\n' then [] :: rest
    else
      match rest with
      | [] => [[c]]
      | h :: r => (c :: h) :: r

/-- Python `str.split('\n')` on strings. -/
def pySplitNl (s : String) : List String :=
  (pySplitNlL s.toList).map String.mk

/-- Helper of `pySplitWs`: accumulates the current token (reversed). -/
def pySplitWsAux : List Char → List Char → List (List Char)
  | [], acc => if acc.isEmpty then [] else [acc.reverse]
  | c :: t, acc =>
    if isSpaceChar c then
      if acc.isEmpty then pySplitWsAux t [] else acc.reverse :: pySplitWsAux t []
    else pySplitWsAux t (c :: acc)

/-- Python `str.split()` (no argument): whitespace-separated tokens, no
empty pieces. -/
def pySplitWs (s : String) : List String :=
  (pySplitWsAux s.toList []).map String.mk

/-- Python `needle in haystack` for strings: contiguous-substring test. -/
def containsSub (needle : List Char) : List Char → Bool
  | [] => needle.isEmpty
  | c :: t => needle.isPrefixOf (c :: t) || containsSub needle t

/-- Python `str.startswith`. -/
def pyStartsWith (prefixStr : String) (s : String) : Bool :=
  prefixStr.toList.isPrefixOf s.toList

/-- Python `line.partition(sep)` restricted to what the source uses: `none`
when the separator does not occur, otherwise the text before the first
occurrence and the text after it. -/
def pyPartition (sep : List Char) : List Char → Option (List Char × List Char)
  | [] => if sep.isEmpty then some ([], []) else none
  | c :: t =>
    if sep.isPrefixOf (c :: t) then some ([], (c :: t).drop sep.length)
    else
      match pyPartition sep t with
      | some (b, a) => some (c :: b, a)
      | none => none

/-- Python `str.upper()` on the ASCII text the parser handles. -/
def pyUpper (s : String) : String := String.mk (s.toList.map Char.toUpper)

/-- Python `int(s)` on a regex-validated run of decimal digits. -/
def pyNat (s : String) : Option Nat :=
  if s.toList ≠ [] ∧ s.toList.all isDigitChar then
    some (s.toList.foldl (fun n c => n * 10 + (c.toNat - '0'.toNat)) 0)
  else none

/-! ## Python `Decimal` as exact scaled integers

`decimal.Decimal(str)` constructs an exact decimal value or raises
`InvalidOperation`.  The embedding stores the value as an integer
mantissa with a power-of-ten scale, exactly the coefficient/exponent pair
of Python's `Decimal`, and covers the grammar
`[sign] (digits [. digits*] | . digits+) [(e|E) [sign] digits]`, which
includes every token the parser ever feeds it.  The module never does
arithmetic on the amounts it parses — it only constructs and stores
them — so construction is all the embedding needs; `Dec.toRat` is the
numeric value used to state the claims' equalities. -/

/-- An exact decimal: the value `num / 10 ^ scale`. -/
structure Dec where
  num : Int
  scale : Nat
deriving DecidableEq, Repr

/-- The numeric value of an exact decimal. -/
def Dec.toRat (d : Dec) : ℚ := (d.num : ℚ) / (10 : ℚ) ^ d.scale

/-- Digits to a natural number. -/
def digitsVal (l : List Char) : Nat :=
  l.foldl (fun n c => n * 10 + (c.toNat - '0'.toNat)) 0

/-- Parses the unsigned mantissa `digits [. digits*] | . digits+`,
returning mantissa digits value, fractional length and the rest. -/
def pyDecimalMantissa (l : List Char) : Option (Nat × Nat × List Char) :=
  let intPart := l.takeWhile isDigitChar
  let rest := l.dropWhile isDigitChar
  match rest with
  | '.' :: r2 =>
    let fracPart := r2.takeWhile isDigitChar
    let rest2 := r2.dropWhile isDigitChar
    if intPart.isEmpty ∧ fracPart.isEmpty then none
    else some (digitsVal (intPart ++ fracPart), fracPart.length, rest2)
  | _ =>
    if intPart.isEmpty then none
    else some (digitsVal intPart, 0, rest)

/-- Python `Decimal(s)`: `none` models a raised `InvalidOperation`. -/
def pyDecimal (s : String) : Option Dec :=
  let l := s.toList
  let (neg, l) : Bool × List Char :=
    match l with
    | '-' :: t => (true, t)
    | '+' :: t => (false, t)
    | _ => (false, l)
  match pyDecimalMantissa l with
  | none => none
  | some (m, fl, rest) =>
    let signed : Int := if neg then -(m : Int) else (m : Int)
    match rest with
    | [] => some ⟨signed, fl⟩
    | e :: r2 =>
      if e = 'e' ∨ e = 'E' then
        let (eneg, r3) : Bool × List Char :=
          match r2 with
          | '-' :: t => (true, t)
          | '+' :: t => (false, t)
          | _ => (false, r2)
        if r3 ≠ [] ∧ r3.all isDigitChar then
          let ex := digitsVal r3
          if eneg then some ⟨signed, fl + ex⟩
          else if ex ≤ fl then some ⟨signed, fl - ex⟩
          else some ⟨signed * (10 : Int) ^ (ex - fl), 0⟩
        else none
      else none

/-! ## A backtracking regex engine

The engine covers exactly the constructs of the module's patterns:
literals, single-character classes, concatenation, ordered alternation,
greedy and lazy repetition of a character class, fixed `{n}` repetition of
a class, named capturing groups, and the `$` anchor.  `reMatch` is
Python's `pattern.match` (anchored at the start, free at the end) and
`reSearch` is `pattern.search` (first position, scanning left to right,
at which a match starts).  Backtracking explores alternatives in the same
order as CPython's engine: for `a|b` the left branch first, for a greedy
class repetition longer runs first, for a lazy one shorter runs first. -/

/-- Regular-expression ASTs over the constructs the source's patterns use. -/
inductive RE where
  | eps : RE
  | cls (p : Char → Bool) : RE
  | lit (s : List Char) : RE
  | seq (a b : RE) : RE
  | alt (a b : RE) : RE
  | starG (p : Char → Bool) : RE
  | starL (p : Char → Bool) : RE
  | repN (n : Nat) (p : Char → Bool) : RE
  | grp (g : String) (a : RE) : RE
  | eos : RE

/-- Captured groups: group name to captured text.  A group absent from the
list did not participate in the match (Python `match.group(name) is None`). -/
abbrev Caps := List (String × List Char)

/-- The text captured for a group, `none` when the group did not
participate. -/
def capLookup (cs : Caps) (g : String) : Option (List Char) :=
  (cs.find? (fun x => x.1 = g)).map (·.2)

/-- The candidate splits a class repetition can make after consuming
`0, 1, …, n` characters: each entry is the consumed prefix (reversed)
and the remaining input, in that (lazy) order. -/
def takesDrops (s : List Char) : Nat → List (List Char × List Char)
  | 0 => [([], s)]
  | n + 1 => takesDrops s n ++ [((s.take (n + 1)).reverse, s.drop (n + 1))]

/-- The first candidate in the list on which the continuation succeeds. -/
def firstSome {α : Type} (f : List Char × List Char → Option α) :
    List (List Char × List Char) → Option α
  | [] => none
  | x :: xs =>
    match f x with
    | some r => some r
    | none => firstSome f xs

/-- The backtracking matcher in continuation-passing style: `reM r s cs k`
matches `r` against a prefix of `s` with captures `cs`, handing the
consumed prefix (reversed), the remaining input and the captures to `k`,
trying alternatives in CPython's order until `k` succeeds. -/
def reM : RE → List Char → Caps →
    (List Char → List Char → Caps → Option Caps) → Option Caps
  | .eps, s, cs, k => k [] s cs
  | .cls p, s, cs, k =>
    match s with
    | [] => none
    | c :: t => if p c then k [c] t cs else none
  | .lit l, s, cs, k =>
    if l.isPrefixOf s then k l.reverse (s.drop l.length) cs else none
  | .seq a b, s, cs, k =>
    reM a s cs fun ca s' cs' => reM b s' cs' fun cb s'' cs'' => k (cb ++ ca) s'' cs''
  | .alt a b, s, cs, k =>
    match reM a s cs k with
    | some r => some r
    | none => reM b s cs k
  | .starG p, s, cs, k =>
    firstSome (fun x => k x.1 x.2 cs) (takesDrops s (s.takeWhile p).length).reverse
  | .starL p, s, cs, k =>
    firstSome (fun x => k x.1 x.2 cs) (takesDrops s (s.takeWhile p).length)
  | .repN n p, s, cs, k =>
    if (s.take n).length = n ∧ (s.take n).all p then
      k (s.take n).reverse (s.drop n) cs
    else none
  | .grp g a, s, cs, k =>
    reM a s cs fun ca s' cs' => k ca s' ((g, ca.reverse) :: cs')
  | .eos, s, cs, k => if s.isEmpty then k [] s cs else none

/-- Python `pattern.match(s)`: anchored at the start, the rest of the
input unconstrained. -/
def reMatch (r : RE) (s : List Char) : Option Caps :=
  reM r s [] (fun _ _ cs => some cs)

/-- Python `pattern.search(s)`: the leftmost starting position at which
`r` matches. -/
def reSearch (r : RE) : List Char → Option Caps
  | [] => reM r [] [] (fun _ _ cs => some cs)
  | c :: t =>
    match reM r (c :: t) [] (fun _ _ cs => some cs) with
    | some cs => some cs
    | none => reSearch r t

/-- Sequencing of a pattern list. -/
def seqAll (l : List RE) : RE := l.foldr RE.seq RE.eps

/-- Greedy `(r)?`. -/
def optG (r : RE) : RE := RE.alt r RE.eps

/-- Greedy `p+` over a character class. -/
def plusG (p : Char → Bool) : RE := RE.seq (RE.cls p) (RE.starG p)

/-- Lazy `p+?` over a character class. -/
def plusL (p : Char → Bool) : RE := RE.seq (RE.cls p) (RE.starL p)

/-- The sub-pattern `\d+(?:\.\d+)?` used for every monetary amount. -/
def decRE : RE := RE.seq (plusG isDigitChar) (optG (RE.seq (RE.lit ['.']) (plusG isDigitChar)))

/-! ## Python list indexing

Python indexing accepts negative indices (counting from the end) and
raises `IndexError` outside `[-len, len)`; list-item assignment follows
the same rule and never changes the list's length. -/

/-- Python `l[i]` for `int` `i`: `none` models a raised `IndexError`. -/
def pyGetInt {α : Type} (l : List α) (i : Int) : Option α :=
  if 0 ≤ i ∧ i < (l.length : Int) then l.get? i.toNat
  else if -(l.length : Int) ≤ i ∧ i < 0 then l.get? (l.length - (-i).toNat)
  else none

/-- Python `l[i] = x` for `int` `i`: `none` models a raised `IndexError`. -/
def pySetInt {α : Type} (l : List α) (i : Int) (x : α) : Option (List α) :=
  if 0 ≤ i ∧ i < (l.length : Int) then some (l.set i.toNat x)
  else if -(l.length : Int) ≤ i ∧ i < 0 then some (l.set (l.length - (-i).toNat) x)
  else none

/-! ## External vocabularies (`poker.constants`, `poker.card`, `poker.hand`)

The spec's §1 treats the card/combination value types and the closed
enumerations for actions, currencies, games, limits and money type as
fixed external vocabularies whose own validation is out of scope.  They
are not under `src/`, so they are modelled from the spec. -/

/-- Modelled from the spec: the fixed betting-action vocabulary of
`poker.constants.Action` (§3/§4.4: bet, call, check, fold, raise, post,
all-in, together with return/win/muck used by the street parser). -/
inductive PAction where
  | BET | CALL | CHECK | FOLD | RAISE | POSTS | ALL_IN | RETURN | WIN | MUCK
deriving DecidableEq, Repr

/-- Modelled from the spec: `Action[name]` for the six keyword names the
street parser looks up after upper-casing (§4.4's closed vocabulary). -/
def actionOfName (s : String) : PAction :=
  if s = "BET" then .BET
  else if s = "CALL" then .CALL
  else if s = "CHECK" then .CHECK
  else if s = "FOLD" then .FOLD
  else if s = "RAISE" then .RAISE
  else .POSTS

/-- Modelled from the spec: `poker.card.Card`, an external value type the
parser constructs from a two-character token; its validation is out of
scope (§1). -/
structure PCard where
  code : String
deriving DecidableEq, Repr

/-- Modelled from the spec: game-type classification, cash or tournament
(§3). -/
inductive PGameType where
  | CASH | TOUR
deriving DecidableEq, Repr

/-- Modelled from the spec: real-money vs play-money classification (§3). -/
inductive PMoneyType where
  | REAL | PLAY
deriving DecidableEq, Repr

/-- Modelled from the spec: the closed currency vocabulary
(`poker.constants.Currency`); `Currency(tok)` raises for an unknown token
and the header parser then stores `None` (§4.2). -/
def knownCurrencies : List String := ["USD", "EUR", "GBP"]

/-- Modelled from the spec: the closed game-variant vocabulary
(`poker.constants.Game`); an unmapped token becomes the explicit UNKNOWN
variant (§4.2). -/
def knownGames : List String := ["HOLD'EM", "OMAHA", "OMAHA HI/LO", "RAZZ", "STUD"]

/-- Modelled from the spec: the closed limit-type vocabulary
(`poker.constants.Limit`). -/
def knownLimits : List String := ["LIMIT", "NO_LIMIT", "POT_LIMIT"]

/-- The record `handhistory._PlayerAction` (player name, action kind,
optional amount); not under `src/`, shape fixed by the spec's §3
PlayerAction. -/
structure PlayerAction where
  name : String
  action : PAction
  amount : Option Dec
deriving DecidableEq, Repr

/-- The record `handhistory._Player` (name, starting stack, seat, optional
hole-card combination); not under `src/`, shape fixed by the spec's §3
Player.  The combination is kept as its raw four-character text, the
external `Combo` type being out of scope (§1). -/
structure PPlayer where
  name : String
  stack : Dec
  seat : Nat
  combo : Option String
deriving DecidableEq, Repr

/-- Modelled from the spec: `_SplittableHandHistoryMixin._init_seats`,
the fixed-length roster pre-filled with empty-seat placeholders (§4.3);
the placeholder's name shape `"Empty Seat N"` is fixed by the occupation
check in `_handle_player_join` (pokerstars.py line 177). -/
def initSeats (maxPlayers : Nat) : List PPlayer :=
  (List.range maxPlayers).map fun i =>
    ⟨"Empty Seat " ++ toString (i + 1), ⟨0, 0⟩, i + 1, none⟩

/-! ## The street patterns of `_Street` -/

/-- The pattern `\[([^\]]+)\]` of `_Street._parse_cards` and
`PokerStarsHandHistory._board_re` (searched, group 1 the card list). -/
def boardRE : RE :=
  seqAll [RE.lit ['['], RE.grp "1" (plusG (fun c => c != ']')), RE.lit [']']]

/-- The pattern `\((\$?\d+(?:\.\d+)?)\)` of `_Street._parse_uncalled`
(searched, group 1 the bracketed amount). -/
def uncAmtRE : RE :=
  seqAll [RE.lit ['('], RE.grp "1" (RE.seq (optG (RE.lit ['$'])) decRE), RE.lit [')']]

/-- The pattern `to (\w+)` of `_Street._parse_uncalled` (searched,
group 1 the recipient). -/
def uncNameRE : RE :=
  RE.seq (RE.lit "to ".toList) (RE.grp "1" (plusG isWordChar))

/-- The pattern `^(?P<name>\w+) collected \$(?P<amount>\d+(?:\.\d+)?) from pot`
of `_Street._parse_collected`. -/
def collectedRE : RE :=
  seqAll [RE.grp "name" (plusG isWordChar), RE.lit " collected $".toList,
    RE.grp "amount" decRE, RE.lit " from pot".toList]

/-- The pattern `^(?P<name>\w+): (doesn't show hand|mucks)` of
`_Street._parse_muck`. -/
def muckRE : RE :=
  seqAll [RE.grp "name" (plusG isWordChar), RE.lit ": ".toList,
    RE.grp "2" (RE.alt (RE.lit "doesn't show hand".toList) (RE.lit "mucks".toList))]

/-- The pattern `^(?P<name>.+?) joins the table at seat #(?P<seat>\d+)$`
of `_Street._handle_player_join`. -/
def joinRE : RE :=
  seqAll [RE.grp "name" (plusL isAnyNoNl), RE.lit " joins the table at seat #".toList,
    RE.grp "seat" (plusG isDigitChar), RE.eos]

/-! ## `_Street` (pokerstars.py lines 27–190) -/

/-- The state a `_Street` accumulates: community cards from the board
line, the turn/river cards when the bracketed list carries a 4th/5th
card, the ordered action sequence (absent, not empty, when nothing
parsed), the running pot set by a `collected` line, and the roster the
spec's §4.4 gives the street parser access to for mid-hand seat joins. -/
structure StreetS where
  cards : List PCard
  turn : Option PCard
  river : Option PCard
  actions : Option (List PlayerAction)
  pot : Option Dec
deriving DecidableEq, Repr

/-- `_Street._parse_cards` (lines 29–49): searches the board line for a
bracketed list, takes up to three cards as the flop and the 4th/5th as
turn/river. -/
def parseCards (boardline : String) : List PCard × Option PCard × Option PCard :=
  match reSearch boardRE boardline.toList with
  | some caps =>
    let cardStrs := match capLookup caps "1" with
      | some l => pySplitWs (String.mk l)
      | none => []
    ((cardStrs.take 3).map PCard.mk,
     (cardStrs.get? 3).map PCard.mk,
     (cardStrs.get? 4).map PCard.mk)
  | none => ([], none, none)

/-- `_Street._parse_uncalled` (lines 77–94): amount from the first
bracketed `(\$?amount)` group, recipient from the first `to (\w+)`
group; `None` when either search fails or the amount is not a valid
decimal (the raised error is caught and logged). -/
def parseUncalled (line : String) : Option PlayerAction :=
  match reSearch uncAmtRE line.toList, reSearch uncNameRE line.toList with
  | some ac, some nc =>
    let amtStr := String.mk (((capLookup ac "1").getD []).filter (fun c => c != '$'))
    match pyDecimal amtStr, capLookup nc "1" with
    | some amount, some name => some ⟨String.mk name, .RETURN, some amount⟩
    | _, _ => none
  | _, _ => none

/-- `_Street._parse_collected` (lines 96–113): a matched `collected`
line yields a WIN action and, as a side effect, sets the street's pot;
a failed match or decimal conversion leaves the pot unchanged and yields
no action. -/
def parseCollected (pot : Option Dec) (line : String) :
    Option Dec × Option PlayerAction :=
  match reMatch collectedRE line.toList with
  | some caps =>
    match (capLookup caps "amount").bind (fun l => pyDecimal (String.mk l)),
          capLookup caps "name" with
    | some amount, some name =>
      (some amount, some ⟨String.mk name, .WIN, some amount⟩)
    | _, _ => (pot, none)
  | none => (pot, none)

/-- `_Street._parse_muck` (lines 115–130): a MUCK action with no amount
when the muck pattern matches, `None` otherwise. -/
def parseMuck (line : String) : Option PlayerAction :=
  match reMatch muckRE line.toList with
  | some caps =>
    match capLookup caps "name" with
    | some name => some ⟨String.mk name, .MUCK, none⟩
    | none => none
  | none => none

/-- `_Street._parse_player_action` (lines 132–164): splits on the first
`": "`, upper-cases the first token after it, recognizes `ALL-IN` (no
amount) and the six keywords `BET CALL CHECK FOLD RAISE POSTS` (amount
from the second token with `$` and `,` stripped, `None` when conversion
fails); any other token discards the line.  A line without `": "` leaves
an empty token list, whose indexing raises and is caught, yielding
`None` as well. -/
def parsePlayerAction (line : String) : Option PlayerAction :=
  match pyPartition ": ".toList line.toList with
  | none => none
  | some (nameChars, actionChars) =>
    match pySplitWs (String.mk actionChars) with
    | [] => none
    | tok0 :: restToks =>
      let action := pyUpper tok0
      if action = "ALL-IN" then some ⟨String.mk nameChars, .ALL_IN, none⟩
      else if action ∈ ["BET", "CALL", "CHECK", "FOLD", "RAISE", "POSTS"] then
        let amount : Option Dec :=
          match restToks with
          | [] => none
          | tok1 :: _ =>
            pyDecimal (String.mk (tok1.toList.filter (fun c => c != '$' ∧ c != ',')))
        some ⟨String.mk nameChars, actionOfName action, amount⟩
      else none

/-- `_Street._handle_player_join` (lines 166–190): seats the joining
player at `seat - 1` (stack 0.00) when that slot's name is falsy or the
empty-seat placeholder for that seat; an occupied slot is only logged.
An out-of-range index raises `IndexError`, which the method's handler
catches, leaving the roster unchanged. -/
def handlePlayerJoin (players : List PPlayer) (line : String) : List PPlayer :=
  match reMatch joinRE line.toList with
  | none => players
  | some caps =>
    match capLookup caps "name", (capLookup caps "seat").bind
        (fun l => pyNat (String.mk l)) with
    | some nameChars, some seat =>
      let name := String.mk nameChars
      match pyGetInt players ((seat : Int) - 1) with
      | none => players
      | some occupant =>
        if occupant.name ≠ "" ∧ occupant.name ≠ "Empty Seat " ++ toString seat then
          players
        else
          (pySetInt players ((seat : Int) - 1) ⟨name, ⟨0, 2⟩, seat, none⟩).getD players
    | _, _ => players

/-- The mutable state threaded through `_Street._parse_actions`'s loop. -/
structure ActFold where
  players : List PPlayer
  pot : Option Dec
  acc : List PlayerAction
deriving Repr

/-- One iteration of `_Street._parse_actions` (lines 51–75): the
priority dispatch over one line.  `None` results and discarded lines
append nothing. -/
def actionsStep (st : ActFold) (line : String) : ActFold :=
  let push : Option PlayerAction → ActFold := fun a =>
    match a with
    | some act => { st with acc := st.acc ++ [act] }
    | none => st
  if pyStartsWith "Uncalled bet" line then push (parseUncalled line)
  else if containsSub "collected".toList line.toList then
    let (pot', a) := parseCollected st.pot line
    match a with
    | some act => { st with pot := pot', acc := st.acc ++ [act] }
    | none => { st with pot := pot' }
  else if containsSub "doesn't show hand".toList line.toList ||
      containsSub "mucks".toList line.toList then push (parseMuck line)
  else if containsSub "joins the table".toList line.toList then
    { st with players := handlePlayerJoin st.players line }
  else if containsSub " said, \"".toList line.toList then st
  else if containsSub ":".toList line.toList then push (parsePlayerAction line)
  else st

/-- `_Street._parse_actions` over all action lines. -/
def parseActions (players : List PPlayer) (lines : List String) : ActFold :=
  lines.foldl actionsStep ⟨players, none, []⟩

/-- The `_Street` constructor: `_BaseStreet.__init__` is not under
`src/`; modelled from the spec's §4.4 street-parser contract, it parses
the block's first line for community cards and classifies the remaining
lines as actions, with roster access for join lines.  An empty action
result is stored as absence (`tuple(actions) if actions else None`). -/
def streetMake (lines : List String) (players : List PPlayer) :
    StreetS × List PPlayer :=
  let (cards, turn, river) := parseCards (lines.headD "")
  let st := parseActions players lines.tail
  (⟨cards, turn, river, if st.acc.isEmpty then none else some st.acc, st.pot⟩,
   st.players)

/-! ## The hand-level patterns of `PokerStarsHandHistory`

`_header_re` is compiled with `re.VERBOSE`, under which every unescaped
whitespace character of the pattern is stripped and `#` starts a
comment.  All of its spacing is written as explicit `\s+` — except
inside the `date` group, whose two literal spaces
(`\d{4}/\d{2}/\d{2} \d{2}:\d{2}:\d{2} \w{2}`) are therefore deleted
from the compiled pattern: the date must match with no separating
spaces at all.  The transcription below reproduces the compiled
(space-stripped) pattern. -/

/-- `PokerStarsHandHistory._header_re` (lines 199–226), as `re.VERBOSE`
compiles it. -/
def headerRE : RE :=
  seqAll [
    RE.lit "PokerStars".toList, plusG isSpaceChar,
    RE.lit "Hand".toList, plusG isSpaceChar, RE.lit ['#'],
    RE.grp "ident" (plusG isDigitChar), RE.lit [':'], plusG isSpaceChar,
    optG (RE.grp "1" (seqAll [
      RE.lit "Tournament".toList, plusG isSpaceChar, RE.lit ['#'],
      RE.grp "tournament_ident" (plusG isDigitChar), RE.lit [','],
      plusG isSpaceChar,
      RE.alt (RE.grp "freeroll" (RE.lit "Freeroll".toList))
        (seqAll [
          RE.lit ['$'], RE.grp "buyin" decRE,
          seqAll [RE.lit "+$".toList, optG (RE.grp "rake" decRE)],
          optG (RE.seq (plusG isSpaceChar) (RE.grp "currency" (plusG isUpperAZ)))]),
      plusG isSpaceChar])),
    RE.grp "game" (plusL isAnyNoNl), plusG isSpaceChar,
    RE.grp "limit" (RE.seq
      (RE.alt (RE.seq (RE.lit "Pot".toList) (plusG isSpaceChar))
        (RE.alt (RE.seq (RE.lit "No".toList) (plusG isSpaceChar)) RE.eps))
      (RE.lit "Limit".toList)),
    plusG isSpaceChar,
    optG (seqAll [RE.lit ['-'], plusG isSpaceChar, RE.lit "Level".toList,
      plusG isSpaceChar, RE.grp "tournament_level" (plusG isNonSpace),
      plusG isSpaceChar]),
    RE.lit ['('],
    RE.alt
      (seqAll [RE.grp "sb" (plusG isDigitChar), RE.lit ['/'],
        RE.grp "bb" (plusG isDigitChar)])
      (seqAll [RE.lit ['$'], RE.grp "cash_sb" decRE, RE.lit ['/'],
        optG (RE.lit ['$']), RE.grp "cash_bb" decRE,
        optG (RE.seq (plusG isSpaceChar) (RE.grp "cash_currency" (plusG isNonSpace)))]),
    RE.lit [')'], plusG isSpaceChar, RE.lit ['-'], plusG isSpaceChar,
    RE.grp "date" (seqAll [
      RE.repN 4 isDigitChar, RE.lit ['/'], RE.repN 2 isDigitChar, RE.lit ['/'],
      RE.repN 2 isDigitChar, RE.repN 2 isDigitChar, RE.lit [':'],
      RE.repN 2 isDigitChar, RE.lit [':'], RE.repN 2 isDigitChar,
      RE.repN 2 isWordChar])]

/-- `PokerStarsHandHistory._table_re` (lines 227–229). -/
def tableRE : RE :=
  seqAll [RE.lit "Table '".toList, RE.grp "table_name" (plusG isAnyNoNl),
    RE.lit "' ".toList, RE.grp "max_players" (plusG isDigitChar),
    RE.lit "-max Seat #".toList, RE.grp "button" (plusG isDigitChar),
    RE.lit " is the button".toList, RE.eos]

/-- `PokerStarsHandHistory._seat_re` (lines 230–232). -/
def seatRE : RE :=
  seqAll [RE.lit "Seat ".toList, RE.grp "seat" (plusG isDigitChar),
    RE.lit ": ".toList, RE.grp "name" (plusL isAnyNoNl),
    RE.lit " (".toList, optG (RE.lit ['$']), RE.grp "stack" decRE,
    RE.lit " in chips)".toList, RE.eos]

/-- `PokerStarsHandHistory._hero_re` (line 233). -/
def heroRE : RE :=
  seqAll [RE.lit "Dealt to ".toList, RE.grp "hero_name" (plusL isAnyNoNl),
    RE.lit " [".toList, RE.grp "card1" (RE.repN 2 isAnyNoNl), RE.lit [' '],
    RE.grp "card2" (RE.repN 2 isAnyNoNl), RE.lit [']'], RE.eos]

/-- `PokerStarsHandHistory._pot_re` (line 234). -/
def potRE : RE :=
  seqAll [RE.lit "Total pot ".toList, optG (RE.lit ['$']), RE.grp "pot" decRE,
    RE.lit " | Rake ".toList, optG (RE.lit ['$']), RE.grp "rake" decRE, RE.eos]

/-- `PokerStarsHandHistory._winner_re` (line 235). -/
def winnerRE : RE :=
  seqAll [RE.lit "Seat ".toList, plusG isDigitChar, RE.lit ": ".toList,
    RE.grp "name" (plusL isAnyNoNl), RE.lit " collected (".toList,
    optG (RE.lit ['$']), RE.grp "amount" decRE, RE.lit [')'], RE.eos]

/-- `PokerStarsHandHistory._showdown_re` (line 236). -/
def showdownRE : RE :=
  seqAll [RE.lit "Seat ".toList, plusG isDigitChar, RE.lit ": ".toList,
    RE.grp "name" (plusL isAnyNoNl), RE.lit " showed [".toList,
    plusL isAnyNoNl, RE.lit "] and won".toList, RE.eos]

/-! ## The parse pipeline (`PokerStarsHandHistory`, lines 192–544) -/

/-- Modelled from the spec: the output of the lexical section splitter
(§4.1), which lives in the `handhistory` module, not under `src/`.  The
splitter partitions the transcript into named line-blocks at the literal
`***` markers; `splitted0` is the text before the first marker (what
`parse_header` reads its first line from, `self._splitted[0]`), and
`header` is the block `self.sections["HEADER"]` handed to the
table/roster states — per §2's control flow and §4.3, the
table-description line and the lines following it (the header grammar
having consumed the transcript's first line).  Each marker section, when
present, holds its marker line followed by the section's lines (cf. the
`_parse_cards` docstring example and `_parse_preflop`'s skip of the
marker line); an absent entry models `name not in self.sections`. -/
structure HandInput where
  splitted0 : String
  header : String
  hole_cards : Option String := none
  flop : Option String := none
  turn : Option String := none
  river : Option String := none
  show_down : Option String := none
  summary : Option String := none

/-- The fields `PokerStarsHandHistory` accumulates over the parse. -/
structure Hand where
  ident : Option String := none
  sb : Dec := ⟨0, 2⟩
  bb : Dec := ⟨0, 2⟩
  game_type : PGameType := .CASH
  tournament_ident : Option String := none
  tournament_level : Option String := none
  buyin : Option Dec := none
  rake : Option Dec := none
  money_type : PMoneyType := .PLAY
  currency : Option String := none
  game : String := ""
  limit : String := ""
  date : Option String := none
  table_name : Option String := none
  max_players : Nat := 0
  players : List PPlayer := []
  button : Option PPlayer := none
  hero : Option PPlayer := none
  preflop_actions : Option (List String) := none
  flop : Option StreetS := none
  turn_actions : Option (List PlayerAction) := none
  river_actions : Option (List PlayerAction) := none
  show_down : Bool := false
  total_pot : Dec := ⟨0, 2⟩
  board : Option (List PCard) := none
  winners : List String := []
deriving DecidableEq, Repr

/-- Python `a or b or dflt` over optional strings, with `None` and the
empty string falsy. -/
def firstTruthy (a b : Option String) (dflt : String) : String :=
  match a with
  | some s =>
    if s = "" then
      match b with
      | some s2 => if s2 = "" then dflt else s2
      | none => dflt
    else s
  | none =>
    match b with
    | some s2 => if s2 = "" then dflt else s2
    | none => dflt

/-- Python truthiness of an optional string. -/
def isTruthyS : Option String → Bool
  | some s => s ≠ ""
  | none => false

/-- Python `s.replace(" ", "_")`. -/
def replaceSpaceUnderscore (s : String) : String :=
  String.mk (s.toList.map fun c => if c = ' ' then '_' else c)

/-- `PokerStarsHandHistory.parse_header` (lines 240–319): matches the
header pattern against the first line of the text before the first
marker; a failed match raises (the parse's only fatal failure), a match
fills identity, blinds, game/limit/currency classification and date.
The `datetime`/`pytz` timestamp conversion is external-library behavior
(its failure is caught and nulls the date); the embedding keeps the
matched date text. -/
def parseHeader (inp : HandInput) : Except String Hand :=
  let headerSection := (pySplitNl (pyStrip inp.splitted0)).headD ""
  match reMatch headerRE headerSection.toList with
  | none => .error "Header does not match expected format."
  | some caps =>
    let g := fun n => (capLookup caps n).map String.mk
    match pyDecimal (firstTruthy (g "sb") (g "cash_sb") "0.00"),
          pyDecimal (firstTruthy (g "bb") (g "cash_bb") "0.00") with
    | some sb, some bb =>
      let h0 : Hand := { ident := g "ident", sb := sb, bb := bb }
      let tourBranch : Except String (Hand × Option String) :=
        if isTruthyS (g "tournament_ident") then
          match pyDecimal (firstTruthy (g "buyin") none "0.00"),
                pyDecimal (firstTruthy (g "rake") none "0.00") with
          | some buyin, some rake =>
            .ok ({ h0 with
                    game_type := .TOUR
                    tournament_ident := g "tournament_ident"
                    tournament_level := g "tournament_level"
                    buyin := some buyin
                    rake := some rake }, g "currency")
          | _, _ => .error "InvalidOperation"
        else
          .ok ({ h0 with
                  game_type := .CASH
                  tournament_ident := none
                  tournament_level := none
                  buyin := none
                  rake := none }, g "cash_currency")
      match tourBranch with
      | .error e => .error e
      | .ok (h1, currency0) =>
        let currency1 :=
          if isTruthyS (g "freeroll") ∧ ¬ isTruthyS currency0 then some "USD"
          else currency0
        let h2 :=
          if ¬ isTruthyS currency1 then
            { h1 with money_type := .PLAY, currency := none }
          else
            { h1 with
              money_type := .REAL
              currency := match currency1 with
                | some tok => if tok ∈ knownCurrencies then some tok else none
                | none => none }
        match g "game", g "limit" with
        | some gameTok, some limitTok =>
          let gameStr := pyUpper gameTok
          let limitStr := replaceSpaceUnderscore (pyUpper limitTok)
          .ok { h2 with
            game := if gameStr ∈ knownGames then gameStr else "UNKNOWN",
            limit := if limitStr ∈ knownLimits then limitStr else "UNKNOWN",
            date := g "date" }
        | _, _ => .error "AttributeError"
    | _, _ => .error "InvalidOperation"

/-- `PokerStarsHandHistory._parse_table` (lines 344–358): matches the
table pattern against the HEADER block's first line; a failed match
raises `RuntimeError`, which the handler logs and re-raises, aborting
the parse. -/
def parseTable (inp : HandInput) (h : Hand) : Except String Hand :=
  let tline := (pySplitNl (pyStrip inp.header)).headD ""
  match reMatch tableRE tline.toList with
  | none => .error "Table section does not match expected format."
  | some caps =>
    match capLookup caps "table_name",
          (capLookup caps "max_players").bind (fun l => pyNat (String.mk l)) with
    | some tn, some mp =>
      .ok { h with table_name := some (String.mk tn), max_players := mp }
    | _, _ => .error "Error parsing table section"

/-- The seat-line loop of `_parse_players`: each matching line seats a
player at `seat - 1` (Python list assignment; an out-of-range seat
raises `IndexError`, which `_parse_players` re-raises), and the first
non-matching line ends the run. -/
def parsePlayersGo : List String → List PPlayer → Except String (List PPlayer)
  | [], ps => .ok ps
  | l :: rest, ps =>
    match reMatch seatRE (pyStrip l).toList with
    | none => .ok ps
    | some caps =>
      match (capLookup caps "seat").bind (fun x => pyNat (String.mk x)),
            capLookup caps "name",
            (capLookup caps "stack").bind (fun x => pyDecimal (String.mk x)) with
      | some seat, some name, some stack =>
        match pySetInt ps ((seat : Int) - 1) ⟨String.mk name, stack, seat, none⟩ with
        | some ps' => parsePlayersGo rest ps'
        | none => .error "Error parsing players section"
      | _, _, _ => .error "Error parsing players section"

/-- `PokerStarsHandHistory._parse_players` (lines 360–382): builds the
placeholder roster of `max_players` seats, then consumes the HEADER
lines after the table line; errors inside the loop are logged and
re-raised. -/
def parsePlayers (inp : HandInput) (h : Hand) : Except String Hand :=
  let lines := (pySplitNl (pyStrip inp.header)).tail
  match parsePlayersGo lines (initSeats h.max_players) with
  | .ok ps => .ok { h with players := ps }
  | .error e => .error e

/-- `PokerStarsHandHistory._parse_button` (lines 384–393): reads
`self._table_match`, an attribute no method of the class ever assigns
(`_parse_table` keeps its match in a local variable), so the lookup
raises `AttributeError`, the handler logs it, and the button is always
`None`. -/
def parseButton (h : Hand) : Hand := { h with button := none }

/-- The first line (stripped) of the block matching the hero pattern. -/
def findFirstMatch (r : RE) : List String → Option Caps
  | [] => none
  | l :: rest =>
    match reMatch r (pyStrip l).toList with
    | some caps => some caps
    | none => findFirstMatch r rest

/-- `PokerStarsHandHistory._parse_hero` (lines 395–419): finds a
`Dealt to` line in the HEADER block, locates the named player
(`_get_hero_from_players`, not under `src/`, modelled from §4.3: locate
the roster entry by name; a missing name raises and nulls the hero),
stores the hole cards on that roster entry, and sets the hero; reading
`self.button.name` with the button `None` then raises `AttributeError`,
whose handler nulls the hero again — the combo annotation on the roster
survives, the hero reference does not. -/
def parseHero (inp : HandInput) (h : Hand) : Hand :=
  let lines := pySplitNl (pyStrip inp.header)
  match findFirstMatch heroRE lines with
  | none => { h with hero := none }
  | some caps =>
    match capLookup caps "hero_name", capLookup caps "card1",
          capLookup caps "card2" with
    | some hn, some c1, some c2 =>
      match h.players.findIdx? (fun p => p.name = String.mk hn) with
      | none => { h with hero := none }
      | some idx =>
        match h.players.get? idx with
        | none => { h with hero := none }
        | some p =>
          let heroP : PPlayer := { p with combo := some (String.mk (c1 ++ c2)) }
          let players' := h.players.set idx heroP
          match h.button with
          | none => { h with players := players', hero := none }
          | some b =>
            if b.name = heroP.name then
              { h with players := players', hero := some heroP, button := some heroP }
            else { h with players := players', hero := some heroP }
    | _, _, _ => { h with hero := none }

/-- `PokerStarsHandHistory._parse_preflop` (lines 421–435): the raw
HOLE_CARDS lines after the marker line, stripped, up to the next `***`
marker; an empty capture is stored as absence. -/
def parsePreflop (inp : HandInput) (h : Hand) : Hand :=
  let lines := (pySplitNl (pyStrip (inp.hole_cards.getD ""))).tail
  let acts := (lines.takeWhile fun l => ¬ pyStartsWith "***" (pyUpper l)).map pyStrip
  { h with preflop_actions := if acts.isEmpty then none else some acts }

/-- `PokerStarsHandHistory._parse_flop` (lines 437–449). -/
def parseFlop (inp : HandInput) (h : Hand) : Hand :=
  match inp.flop with
  | none => { h with flop := none }
  | some block =>
    let (st, ps) := streetMake (pySplitNl (pyStrip block)) h.players
    { h with flop := some st, players := ps }

/-- `PokerStarsHandHistory._parse_street` (lines 451–465) for the turn:
only the street's action tuple is kept. -/
def parseTurn (inp : HandInput) (h : Hand) : Hand :=
  match inp.turn with
  | none => { h with turn_actions := none }
  | some block =>
    let (st, ps) := streetMake (pySplitNl (pyStrip block)) h.players
    { h with turn_actions := st.actions, players := ps }

/-- `PokerStarsHandHistory._parse_street` for the river. -/
def parseRiver (inp : HandInput) (h : Hand) : Hand :=
  match inp.river with
  | none => { h with river_actions := none }
  | some block =>
    let (st, ps) := streetMake (pySplitNl (pyStrip block)) h.players
    { h with river_actions := st.actions, players := ps }

/-- `PokerStarsHandHistory._parse_showdown` (lines 467–475). -/
def parseShowdown (inp : HandInput) (h : Hand) : Hand :=
  { h with show_down := inp.show_down.isSome }

/-- `PokerStarsHandHistory._parse_pot` (lines 477–500): the first
SUMMARY line matching the pot pattern sets total pot and rake; a
missing section, no matching line, or a failed conversion (the handler
catches it) leaves both at `Decimal('0.00')`. -/
def parsePot (inp : HandInput) (h : Hand) : Hand :=
  match inp.summary with
  | none => { h with total_pot := ⟨0, 2⟩, rake := some ⟨0, 2⟩ }
  | some s =>
    match findFirstMatch potRE (pySplitNl (pyStrip s)) with
    | some caps =>
      match (capLookup caps "pot").bind (fun l => pyDecimal (String.mk l)),
            (capLookup caps "rake").bind (fun l => pyDecimal (String.mk l)) with
      | some pot, some rake => { h with total_pot := pot, rake := some rake }
      | _, _ => { h with total_pot := ⟨0, 2⟩, rake := some ⟨0, 2⟩ }
    | none => { h with total_pot := ⟨0, 2⟩, rake := some ⟨0, 2⟩ }

/-- The first SUMMARY line containing a bracketed list (searched on the
raw, unstripped line, as `_parse_board` does). -/
def findFirstSearch (r : RE) : List String → Option Caps
  | [] => none
  | l :: rest =>
    match reSearch r l.toList with
    | some caps => some caps
    | none => findFirstSearch r rest

/-- `PokerStarsHandHistory._parse_board` (lines 502–521). -/
def parseBoard (inp : HandInput) (h : Hand) : Hand :=
  match inp.summary with
  | none => { h with board := none }
  | some s =>
    match findFirstSearch boardRE (pySplitNl (pyStrip s)) with
    | some caps =>
      match capLookup caps "1" with
      | some l => { h with board := some ((pySplitWs (String.mk l)).map PCard.mk) }
      | none => { h with board := none }
    | none => { h with board := none }

/-- Python `set.add` on the winner accumulation, kept as a
duplicate-free list in first-mention order (`tuple(set)` order is not
significant, per the spec's §4.5). -/
def setAdd (ws : List String) (n : String) : List String :=
  if n ∈ ws then ws else ws ++ [n]

/-- One SUMMARY line of `_parse_winners`: a `collected` seat line or a
`showed … and won` seat line adds the name to the winner set. -/
def winnersStep (ws : List String) (line : String) : List String :=
  match reMatch winnerRE (pyStrip line).toList with
  | some caps =>
    match capLookup caps "name" with
    | some n => setAdd ws (String.mk n)
    | none => ws
  | none =>
    match reMatch showdownRE (pyStrip line).toList with
    | some caps =>
      match capLookup caps "name" with
      | some n => setAdd ws (String.mk n)
      | none => ws
    | none => ws

/-- `PokerStarsHandHistory._parse_winners` (lines 523–544). -/
def parseWinners (inp : HandInput) (h : Hand) : Hand :=
  match inp.summary with
  | none => { h with winners := [] }
  | some s => { h with winners := (pySplitNl (pyStrip s)).foldl winnersStep [] }

/-- The total tail of the pipeline after the roster state: every one of
these states catches its own failures and defaults its field, so none
can abort the parse. -/
def parseRest (inp : HandInput) (h : Hand) : Hand :=
  parseWinners inp (parseBoard inp (parsePot inp (parseShowdown inp
    (parseRiver inp (parseTurn inp (parseFlop inp (parsePreflop inp
      (parseHero inp (parseButton h)))))))))

/-- `PokerStarsHandHistory.parse` (lines 321–342): header, table and
roster in sequence — each of which propagates its failure — then the
self-defaulting states through the summary extractors. -/
def parse (inp : HandInput) : Except String Hand :=
  match parseHeader inp with
  | .error e => .error e
  | .ok h =>
    match parseTable inp h with
    | .error e => .error e
    | .ok h =>
      match parsePlayers inp h with
      | .error e => .error e
      | .ok h => .ok (parseRest inp h)

/-! ## Concrete transcripts used by the claims -/

/-- The FLOP section block of claim C1's scenario. -/
def flopLinesC1 : List String :=
  ["*** FLOP *** [4c Js 7c]", "P1: bets $0.10", "P2: folds"]

/-- The transcript of claim C3's scenario: header line, table line, one
seat line, no marker sections. -/
def inpC3 : HandInput :=
  { splitted0 := "PokerStars Hand #1: Hold'em No Limit ($0.01/$0.02) - 2020/01/01 12:00:00 ET\nTable 'T1' 6-max Seat #1 is the button\nSeat 1: A ($2.00 in chips)"
    header := "Table 'T1' 6-max Seat #1 is the button\nSeat 1: A ($2.00 in chips)" }

/-! ## The claims -/

/-- Claim C1: for the FLOP block `*** FLOP *** [4c Js 7c]` /
`P1: bets $0.10` / `P2: folds`, the spec expects flop cards (4c, Js, 7c)
with turn and river absent and actions `[(P1, BET, 0.10), (P2, FOLD,
None)]`.  The street parser does extract exactly those cards, but
records no actions at all: `_parse_player_action` upper-cases the first
token after `": "` and accepts only `BET CALL CHECK FOLD RAISE POSTS`,
so the transcript tokens `bets` and `folds` (upper-cased `BETS`,
`FOLDS`) are discarded and the street's action sequence is `None` —
contradicting the function's own docstring example. -/
theorem claim_C1_flop_scenario :
    (streetMake flopLinesC1 []).1 =
      ⟨[⟨"4c"⟩, ⟨"Js"⟩, ⟨"7c"⟩], none, none, none, none⟩ := by
  rfl

/-- Claim C3: the spec's scenario expects a successful parse with game
type CASH, blinds 0.01/0.02, roster seat 1 `A` with stack 2.00 and the
button resolved to that player.  The code instead fails fatally on the
header line: `_header_re` is compiled with `re.VERBOSE`, which deletes
the two unescaped spaces inside the date sub-pattern, so the date
`2020/01/01 12:00:00 ET` cannot match and `parse_header` raises. -/
theorem claim_C3_scenario_fatal :
    parse inpC3 = .error "Header does not match expected format." := by
  rfl

/-- Claim C4: the spec expects `Hero: raises $0.10 to $0.15` to yield
(Hero, RAISE, 0.10).  The code discards the line: the upper-cased token
`RAISES` is not in the recognized list `BET CALL CHECK FOLD RAISE
POSTS`, so `_parse_player_action` logs an unknown action and returns
`None` — although this very line is the docstring's own example. -/
theorem claim_C4_raises_discarded :
    parsePlayerAction "Hero: raises $0.10 to $0.15" = none := by
  rfl

/-- Claim C5: a transcript whose header line fails the header grammar
(in particular one lacking the hand-identity field) makes the parse
raise the fatal header error and produce no hand at all. -/
theorem claim_C5_header_fatal (inp : HandInput)
    (hnm : reMatch headerRE ((pySplitNl (pyStrip inp.splitted0)).headD "").toList = none) :
    parse inp = .error "Header does not match expected format." := by
  unfold parse parseHeader
  simp only [hnm]

/-- A transcript whose header line lacks the hand-identity field
(`Hand #<digits>:`), for claim C5's witness. -/
def inpC5 : HandInput :=
  { splitted0 := "PokerStars Hand: Hold'em No Limit ($0.01/$0.02) - 2020/01/0112:00:00ET"
    header := "" }

/-- Claim C5's witness: the fatal header error at a concrete
identity-less transcript. -/
theorem claim_C5_witness :
    parse inpC5 = .error "Header does not match expected format." :=
  claim_C5_header_fatal inpC5 (by rfl)

/-- A transcript whose header line matches the (VERBOSE-compiled) header
grammar but whose table line is malformed, for claim C2. -/
def inpC2 : HandInput :=
  { splitted0 := "PokerStars Hand #7: Hold'em No Limit ($0.01/$0.02) - 2020/01/0112:00:00ET\nTble garbage"
    header := "Tble garbage" }

/-- Claim C2's counterexample: the claim says a malformed table line is
logged and parsing continues to a HandHistory, but on this transcript —
whose header line matches the header grammar — the parse aborts with the
table error: `_parse_table`'s handler logs the failure and re-raises
it. -/
theorem claim_C2_counterexample :
    parse inpC2 = .error "Table section does not match expected format." := by
  rfl

/-- Claim C2 as amended: after a successful header parse, a missing or
malformed table line is fatal — `_parse_table` logs and re-raises, so
the failure unwinds out of `parse` exactly like a header failure — while
a malformed seat line is indeed non-fatal: the roster run simply ends at
the first line that does not match the seat pattern. -/
theorem claim_C2_amended :
    (∀ (inp : HandInput) (h : Hand), parseHeader inp = .ok h →
      reMatch tableRE ((pySplitNl (pyStrip inp.header)).headD "").toList = none →
      parse inp = .error "Table section does not match expected format.") ∧
    (∀ (l : String) (rest : List String) (ps : List PPlayer),
      reMatch seatRE (pyStrip l).toList = none →
      parsePlayersGo (l :: rest) ps = .ok ps) := by
  constructor
  · intro inp h hok hnm
    unfold parse
    rw [hok]
    unfold parseTable
    simp only [hnm]
  · intro l rest ps hnm
    unfold parsePlayersGo
    rw [hnm]

/-- The hand record claim C2's witness extracts from its transcript's
successful header parse. -/
def handC2 : Hand :=
  match parseHeader inpC2 with
  | .ok h => h
  | .error _ => {}

/-- Claim C2's witness: the amended table-abort statement applied to the
concrete transcript `inpC2`. -/
theorem claim_C2_witness :
    parse inpC2 = .error "Table section does not match expected format." :=
  claim_C2_amended.1 inpC2 handC2 (by rfl) (by rfl)

/-- Inversion of a successful parse: the header, table and roster
states each succeeded and the result is the total remainder of the
pipeline. -/
theorem parse_ok_inv (inp : HandInput) (r : Hand) (hok : parse inp = .ok r) :
    ∃ h1 h2 h3, parseHeader inp = .ok h1 ∧ parseTable inp h1 = .ok h2 ∧
      parsePlayers inp h2 = .ok h3 ∧ r = parseRest inp h3 := by
  unfold parse at hok
  cases hh : parseHeader inp with
  | error e => rw [hh] at hok; simp at hok
  | ok h1 =>
    rw [hh] at hok
    dsimp only at hok
    cases ht : parseTable inp h1 with
    | error e => rw [ht] at hok; simp at hok
    | ok h2 =>
      rw [ht] at hok
      dsimp only at hok
      cases hp : parsePlayers inp h2 with
      | error e => rw [hp] at hok; simp at hok
      | ok h3 =>
        rw [hp] at hok
        dsimp only at hok
        exact ⟨h1, h2, h3, rfl, ht, hp, by cases hok; rfl⟩

/-- A transcript with no SUMMARY section and an ordinary header line,
for claim C6's counterexample. -/
def inpC6 : HandInput :=
  { splitted0 := "PokerStars Hand #9: Hold'em No Limit ($0.01/$0.02) - 2020/01/01 12:00:00 ET\nTable 'T1' 6-max Seat #1 is the button\nSeat 1: A ($2.00 in chips)"
    header := "Table 'T1' 6-max Seat #1 is the button\nSeat 1: A ($2.00 in chips)" }

/-- Claim C6's counterexample: the claim quantifies over every transcript
with no SUMMARY section, but this one — an ordinary header with its
spaced date, no SUMMARY — is fatal: the parse never reaches the summary
extractors, because earlier states (here the VERBOSE-broken header
grammar; likewise any malformed table line) abort it. -/
theorem claim_C6_counterexample :
    parse inpC6 = .error "Header does not match expected format." := by
  rfl

/-- Claim C6 as amended: whenever the parse does complete (header, table
and roster states succeed), a missing SUMMARY section yields total pot
0.00, rake 0.00, board absent and winners empty — the summary
extractors themselves never fail fatally, each defaulting its field when
the section is absent. -/
theorem claim_C6_amended (inp : HandInput) (r : Hand)
    (hok : parse inp = .ok r) (hsum : inp.summary = none) :
    r.total_pot = ⟨0, 2⟩ ∧ r.rake = some ⟨0, 2⟩ ∧ r.board = none ∧
      r.winners = [] := by
  obtain ⟨h1, h2, h3, _, _, _, hr⟩ := parse_ok_inv inp r hok
  subst hr
  unfold parseRest parseWinners parseBoard parsePot
  rw [hsum]
  simp

/-- A transcript that parses to completion (its date written in the only
form the VERBOSE-compiled grammar accepts) and has no SUMMARY section,
for claim C6's witness. -/
def inpC6w : HandInput :=
  { splitted0 := "PokerStars Hand #9: Hold'em No Limit ($0.01/$0.02) - 2020/01/0112:00:00ET\nTable 'T1' 6-max Seat #1 is the button\nSeat 1: A ($2.00 in chips)"
    header := "Table 'T1' 6-max Seat #1 is the button\nSeat 1: A ($2.00 in chips)" }

/-- The hand record `inpC6w` parses to. -/
def handC6 : Hand :=
  match parse inpC6w with
  | .ok h => h
  | .error _ => {}

/-- Claim C6's witness: the amended statement applied to the concrete
summary-less transcript `inpC6w`, whose parse completes. -/
theorem claim_C6_witness :
    handC6.total_pot = ⟨0, 2⟩ ∧ handC6.rake = some ⟨0, 2⟩ ∧
      handC6.board = none ∧ handC6.winners = [] :=
  claim_C6_amended inpC6w handC6 (by rfl) rfl

/-! ## Claim C7: the winners are a true set -/

/-- The name a SUMMARY line contributes through the `collected` winner
pattern. -/
def winnerNameOf (line : String) : Option String :=
  match reMatch winnerRE (pyStrip line).toList with
  | some caps => (capLookup caps "name").map String.mk
  | none => none

/-- The name a SUMMARY line contributes through the `showed … and won`
pattern. -/
def showdownNameOf (line : String) : Option String :=
  match reMatch showdownRE (pyStrip line).toList with
  | some caps => (capLookup caps "name").map String.mk
  | none => none

/-- Set insertion never loses existing members. -/
theorem mem_setAdd_of_mem {ws : List String} {a n : String} (h : a ∈ ws) :
    a ∈ setAdd ws n := by
  unfold setAdd
  by_cases hn : n ∈ ws
  · simp [hn, h]
  · simp [hn, h]

/-- Set insertion contains the inserted name. -/
theorem mem_setAdd_self (ws : List String) (n : String) : n ∈ setAdd ws n := by
  unfold setAdd
  by_cases hn : n ∈ ws
  · rw [if_pos hn]; exact hn
  · rw [if_neg hn]; exact List.mem_append_right _ (by simp)

/-- Set insertion keeps the winner list duplicate-free. -/
theorem setAdd_nodup {ws : List String} (h : ws.Nodup) (n : String) :
    (setAdd ws n).Nodup := by
  unfold setAdd
  by_cases hn : n ∈ ws
  · simpa [hn]
  · simp only [hn, if_false]
    rw [List.nodup_append]
    exact ⟨h, List.nodup_singleton n, fun a ha hb => by
      simp only [List.mem_singleton] at hb
      subst hb
      exact hn ha⟩

/-- One winner-scan step keeps the list duplicate-free. -/
theorem winnersStep_nodup {ws : List String} (h : ws.Nodup) (l : String) :
    (winnersStep ws l).Nodup := by
  unfold winnersStep
  repeat' split
  all_goals first
    | exact setAdd_nodup h _
    | exact h

/-- One winner-scan step keeps existing members. -/
theorem winnersStep_mem_of_mem {ws : List String} {a : String} (h : a ∈ ws)
    (l : String) : a ∈ winnersStep ws l := by
  unfold winnersStep
  repeat' split
  all_goals first
    | exact mem_setAdd_of_mem h
    | exact h

/-- A line matching the `collected` winner pattern puts its name into
the accumulating set. -/
theorem winnersStep_mem_of_winner {ws : List String} {l n : String}
    (h : winnerNameOf l = some n) : n ∈ winnersStep ws l := by
  unfold winnerNameOf at h
  unfold winnersStep
  cases hm : reMatch winnerRE (pyStrip l).toList with
  | none => rw [hm] at h; simp at h
  | some caps =>
    rw [hm] at h
    dsimp only at h ⊢
    cases hc : capLookup caps "name" with
    | none => rw [hc] at h; simp at h
    | some nl =>
      rw [hc] at h
      dsimp only
      dsimp only [Option.map] at h
      injection h with h2
      subst h2
      exact mem_setAdd_self ws (String.mk nl)

/-- The winner fold keeps duplicate-free lists duplicate-free. -/
theorem winnersFold_nodup (lines : List String) {ws : List String}
    (h : ws.Nodup) : (lines.foldl winnersStep ws).Nodup := by
  induction lines generalizing ws with
  | nil => simpa
  | cons l rest ih => exact ih (winnersStep_nodup h l)

/-- The winner fold keeps existing members. -/
theorem winnersFold_mem_of_mem (lines : List String) {ws : List String}
    {a : String} (h : a ∈ ws) : a ∈ lines.foldl winnersStep ws := by
  induction lines generalizing ws with
  | nil => simpa
  | cons l rest ih => exact ih (winnersStep_mem_of_mem h l)

/-- Any line of the scan matching the `collected` winner pattern puts
its name into the final fold result. -/
theorem winnersFold_mem_of_line (lines : List String) {ws : List String}
    {l n : String} (hl : l ∈ lines) (h : winnerNameOf l = some n) :
    n ∈ lines.foldl winnersStep ws := by
  induction lines generalizing ws with
  | nil => cases hl
  | cons l0 rest ih =>
    rcases List.mem_cons.mp hl with rfl | hmem
    · exact winnersFold_mem_of_mem rest (winnersStep_mem_of_winner h)
    · exact ih hmem

/-- Claim C7: the winners result of the SUMMARY extractor is a true
set — it never contains a duplicate name, and a player mentioned both
by a `Seat N: <name> collected (<amount>)` line and by a
`Seat N: <name> showed […] and won` line of the same SUMMARY appears in
it exactly once (the order of the winner collection carries no
information, matching Python's unordered `set`). -/
theorem claim_C7_winners_true_set :
    ∀ (inp : HandInput) (h : Hand),
      (parseWinners inp h).winners.Nodup ∧
      (∀ (s lc ls n : String),
        inp.summary = some s →
        lc ∈ pySplitNl (pyStrip s) → ls ∈ pySplitNl (pyStrip s) →
        winnerNameOf lc = some n → showdownNameOf ls = some n →
        (parseWinners inp h).winners.count n = 1) := by
  intro inp h
  constructor
  · unfold parseWinners
    cases inp.summary with
    | none => simp
    | some s =>
      dsimp only
      exact winnersFold_nodup (pySplitNl (pyStrip s)) List.nodup_nil
  · intro s lc ls n hs hlc hls hw _
    unfold parseWinners
    rw [hs]
    dsimp only
    exact List.count_eq_one_of_mem
      (winnersFold_nodup (pySplitNl (pyStrip s)) List.nodup_nil)
      (winnersFold_mem_of_line (pySplitNl (pyStrip s)) hlc hw)

/-- A SUMMARY section naming `A` both as collector and as
showed-and-won, for claim C7's witness. -/
def inpC7 : HandInput :=
  { splitted0 := ""
    header := ""
    summary := some "*** SUMMARY ***\nTotal pot $0.37 | Rake $0.02\nSeat 1: A collected ($0.37)\nSeat 1: A showed [Ah Kh] and won" }

/-- Claim C7's witness: on the concrete SUMMARY naming `A` under both
winner shapes, `A` is counted exactly once. -/
theorem claim_C7_witness :
    (parseWinners inpC7 {}).winners.count "A" = 1 :=
  (claim_C7_winners_true_set inpC7 {}).2
    "*** SUMMARY ***\nTotal pot $0.37 | Rake $0.02\nSeat 1: A collected ($0.37)\nSeat 1: A showed [Ah Kh] and won"
    "Seat 1: A collected ($0.37)" "Seat 1: A showed [Ah Kh] and won" "A"
    rfl (by decide) (by decide) (by rfl) (by rfl)

/-! ## Claim C8: an uncalled-bet line always yields its RETURN action -/

/-- The uncalled-bet line of claim C8. -/
def uncLineC8 : String := "Uncalled bet ($0.40) returned to EsAyy"

/-- The RETURN action claim C8 expects from `uncLineC8`. -/
def uncActC8 : PlayerAction := ⟨"EsAyy", .RETURN, some ⟨40, 2⟩⟩

/-- An action-scan step never drops an action already recorded. -/
theorem actionsStep_acc_mono {st : ActFold} {a : PlayerAction}
    (h : a ∈ st.acc) (line : String) : a ∈ (actionsStep st line).acc := by
  unfold actionsStep
  dsimp only
  repeat' split
  all_goals simp [h]

/-- The action-scan fold never drops an action already recorded. -/
theorem actionsFold_acc_mono (lines : List String) {st : ActFold}
    {a : PlayerAction} (h : a ∈ st.acc) :
    a ∈ (lines.foldl actionsStep st).acc := by
  induction lines generalizing st with
  | nil => simpa
  | cons l rest ih => exact ih (actionsStep_acc_mono h l)

/-- Scanning claim C8's uncalled-bet line appends exactly its RETURN
action, whatever the scan state. -/
theorem actionsStep_uncalled (st : ActFold) :
    actionsStep st uncLineC8 = { st with acc := st.acc ++ [uncActC8] } := by
  rfl

/-- Claim C8: a street whose action lines contain
`Uncalled bet ($0.40) returned to EsAyy` — wherever it stands among
them and whatever the roster — records a RETURN action for `EsAyy` of
exactly 0.40 in its (therefore non-absent) action sequence. -/
theorem claim_C8_uncalled_return :
    ∀ (board : String) (pre post : List String) (ps : List PPlayer),
      ∃ acts, (streetMake (board :: (pre ++ uncLineC8 :: post)) ps).1.actions =
          some acts ∧ uncActC8 ∈ acts := by
  intro board pre post ps
  unfold streetMake parseActions
  dsimp only [List.tail_cons]
  rw [List.foldl_append]
  set st1 := pre.foldl actionsStep ⟨ps, none, []⟩ with hst1
  have hmem : uncActC8 ∈ (((uncLineC8 :: post)).foldl actionsStep st1).acc := by
    dsimp only [List.foldl_cons]
    rw [actionsStep_uncalled]
    exact actionsFold_acc_mono post (by simp)
  refine ⟨(((uncLineC8 :: post)).foldl actionsStep st1).acc, ?_, hmem⟩
  have hnil : (List.foldl actionsStep (actionsStep st1 uncLineC8) post).acc ≠ [] :=
    List.ne_nil_of_mem hmem
  simp [List.isEmpty_iff, hnil]

/-! ## Claim C9: the roster invariant -/

/-- A successful Python item assignment keeps the list's length. -/
theorem pySetInt_length {α : Type} {l l' : List α} {i : Int} {x : α}
    (h : pySetInt l i x = some l') : l'.length = l.length := by
  unfold pySetInt at h
  split at h
  · cases h; exact List.length_set ..
  · split at h
    · cases h; exact List.length_set ..
    · cases h

/-- Falling back to the unchanged roster on a failed assignment keeps
the length. -/
theorem pySetInt_getD_length {α : Type} (l : List α) (i : Int) (x : α) :
    ((pySetInt l i x).getD l).length = l.length := by
  cases hs : pySetInt l i x with
  | none => rfl
  | some l2 => simpa using pySetInt_length hs

/-- A mid-hand seat join never changes the roster's length. -/
theorem handlePlayerJoin_length (ps : List PPlayer) (line : String) :
    (handlePlayerJoin ps line).length = ps.length := by
  unfold handlePlayerJoin
  repeat' split
  all_goals simp [pySetInt_getD_length]

/-- An action-scan step never changes the roster's length. -/
theorem actionsStep_players_length (st : ActFold) (line : String) :
    (actionsStep st line).players.length = st.players.length := by
  unfold actionsStep
  dsimp only
  repeat' split
  all_goals simp [handlePlayerJoin_length]

/-- The action-scan fold never changes the roster's length. -/
theorem actionsFold_players_length (lines : List String) (st : ActFold) :
    (lines.foldl actionsStep st).players.length = st.players.length := by
  induction lines generalizing st with
  | nil => rfl
  | cons l rest ih => rw [List.foldl_cons, ih, actionsStep_players_length]

/-- Parsing a street never changes the roster's length. -/
theorem streetMake_players_length (lines : List String) (ps : List PPlayer) :
    (streetMake lines ps).2.length = ps.length := by
  unfold streetMake parseActions
  exact actionsFold_players_length ..

/-- The roster built by `initSeats` has exactly the requested length. -/
theorem initSeats_length (n : Nat) : (initSeats n).length = n := by
  unfold initSeats
  rw [List.length_map, List.length_range]

/-- The seat-line run keeps the roster's length. -/
theorem parsePlayersGo_length (lines : List String) (ps ps' : List PPlayer)
    (h : parsePlayersGo lines ps = .ok ps') : ps'.length = ps.length := by
  induction lines generalizing ps with
  | nil => cases h; rfl
  | cons l rest ih =>
    unfold parsePlayersGo at h
    split at h
    · cases h; rfl
    · split at h
      · rename_i seat name stack _ _ _
        split at h
        · rename_i ps2 hset
          rw [ih _ h, pySetInt_length hset]
        · cases h
      · cases h

/-- The roster state: a successful `_parse_players` leaves a roster of
exactly `max_players` seats and keeps the max-seats value. -/
theorem parsePlayers_invariant (inp : HandInput) (h h' : Hand)
    (hp : parsePlayers inp h = .ok h') :
    h'.players.length = h.max_players ∧ h'.max_players = h.max_players := by
  unfold parsePlayers at hp
  dsimp only at hp
  cases hgo : parsePlayersGo ((pySplitNl (pyStrip inp.header)).tail)
      (initSeats h.max_players) with
  | error e => rw [hgo] at hp; cases hp
  | ok ps =>
    rw [hgo] at hp
    cases hp
    exact ⟨by rw [parsePlayersGo_length _ _ _ hgo, initSeats_length], rfl⟩

/-- The hero state never changes the roster's length. -/
theorem parseHero_players_length (inp : HandInput) (h : Hand) :
    (parseHero inp h).players.length = h.players.length := by
  unfold parseHero
  dsimp only
  cases findFirstMatch heroRE (pySplitNl (pyStrip inp.header)) with
  | none => rfl
  | some caps =>
    dsimp only
    repeat' split
    all_goals simp [List.length_set]

/-- The hero state keeps the max-seats value. -/
theorem parseHero_max (inp : HandInput) (h : Hand) :
    (parseHero inp h).max_players = h.max_players := by
  unfold parseHero
  dsimp only
  cases findFirstMatch heroRE (pySplitNl (pyStrip inp.header)) with
  | none => rfl
  | some caps =>
    dsimp only
    repeat' split
    all_goals rfl

/-- The flop state keeps the roster's length and the max-seats value. -/
theorem parseFlop_players_length (inp : HandInput) (h : Hand) :
    (parseFlop inp h).players.length = h.players.length ∧
      (parseFlop inp h).max_players = h.max_players := by
  unfold parseFlop
  cases inp.flop with
  | none => exact ⟨rfl, rfl⟩
  | some block =>
    dsimp only
    cases hsm : streetMake (pySplitNl (pyStrip block)) h.players with
    | mk st ps =>
      have hl := streetMake_players_length (pySplitNl (pyStrip block)) h.players
      rw [hsm] at hl
      exact ⟨hl, rfl⟩

/-- The turn state keeps the roster's length and the max-seats value. -/
theorem parseTurn_players_length (inp : HandInput) (h : Hand) :
    (parseTurn inp h).players.length = h.players.length ∧
      (parseTurn inp h).max_players = h.max_players := by
  unfold parseTurn
  cases inp.turn with
  | none => exact ⟨rfl, rfl⟩
  | some block =>
    dsimp only
    cases hsm : streetMake (pySplitNl (pyStrip block)) h.players with
    | mk st ps =>
      have hl := streetMake_players_length (pySplitNl (pyStrip block)) h.players
      rw [hsm] at hl
      exact ⟨hl, rfl⟩

/-- The river state keeps the roster's length and the max-seats value. -/
theorem parseRiver_players_length (inp : HandInput) (h : Hand) :
    (parseRiver inp h).players.length = h.players.length ∧
      (parseRiver inp h).max_players = h.max_players := by
  unfold parseRiver
  cases inp.river with
  | none => exact ⟨rfl, rfl⟩
  | some block =>
    dsimp only
    cases hsm : streetMake (pySplitNl (pyStrip block)) h.players with
    | mk st ps =>
      have hl := streetMake_players_length (pySplitNl (pyStrip block)) h.players
      rw [hsm] at hl
      exact ⟨hl, rfl⟩

/-- The pot state never touches the roster or the max-seats value. -/
theorem parsePot_players (inp : HandInput) (h : Hand) :
    (parsePot inp h).players = h.players ∧
      (parsePot inp h).max_players = h.max_players := by
  unfold parsePot
  repeat' split
  all_goals exact ⟨rfl, rfl⟩

/-- The board state never touches the roster or the max-seats value. -/
theorem parseBoard_players (inp : HandInput) (h : Hand) :
    (parseBoard inp h).players = h.players ∧
      (parseBoard inp h).max_players = h.max_players := by
  unfold parseBoard
  repeat' split
  all_goals exact ⟨rfl, rfl⟩

/-- The winners state never touches the roster or the max-seats value. -/
theorem parseWinners_players (inp : HandInput) (h : Hand) :
    (parseWinners inp h).players = h.players ∧
      (parseWinners inp h).max_players = h.max_players := by
  unfold parseWinners
  cases inp.summary with
  | none => exact ⟨rfl, rfl⟩
  | some s => exact ⟨rfl, rfl⟩

/-- The defaulting tail of the pipeline keeps the roster's length and
the max-seats value. -/
theorem parseRest_players_length (inp : HandInput) (h : Hand) :
    (parseRest inp h).players.length = h.players.length ∧
      (parseRest inp h).max_players = h.max_players := by
  unfold parseRest
  obtain ⟨w1, w2⟩ := parseWinners_players inp
    (parseBoard inp (parsePot inp (parseShowdown inp
      (parseRiver inp (parseTurn inp (parseFlop inp (parsePreflop inp
        (parseHero inp (parseButton h)))))))))
  rw [w1, w2]
  obtain ⟨b1, b2⟩ := parseBoard_players inp (parsePot inp (parseShowdown inp
      (parseRiver inp (parseTurn inp (parseFlop inp (parsePreflop inp
        (parseHero inp (parseButton h))))))))
  rw [b1, b2]
  obtain ⟨p1, p2⟩ := parsePot_players inp (parseShowdown inp
      (parseRiver inp (parseTurn inp (parseFlop inp (parsePreflop inp
        (parseHero inp (parseButton h)))))))
  rw [p1, p2]
  show (parseRiver inp _).players.length = _ ∧ (parseRiver inp _).max_players = _
  obtain ⟨r1, r2⟩ := parseRiver_players_length inp
    (parseTurn inp (parseFlop inp (parsePreflop inp
      (parseHero inp (parseButton h)))))
  rw [r1, r2]
  obtain ⟨t1, t2⟩ := parseTurn_players_length inp
    (parseFlop inp (parsePreflop inp (parseHero inp (parseButton h))))
  rw [t1, t2]
  obtain ⟨f1, f2⟩ := parseFlop_players_length inp
    (parsePreflop inp (parseHero inp (parseButton h)))
  rw [f1, f2]
  show (parseHero inp _).players.length = _ ∧ (parseHero inp _).max_players = _
  rw [parseHero_players_length, parseHero_max]
  exact ⟨rfl, rfl⟩

/-- Claim C9: the roster invariant.  (1) Every successful parse ends
with a roster whose length equals the max-seats value read from the
table line.  (2) A `joins the table at seat #N` event never overwrites an
occupied seat: when the slot it addresses holds a player whose name is
non-empty and is not that seat's empty-seat placeholder, the roster is
unchanged.  (3) It populates the addressed seat exactly when the slot
holds the placeholder (or a falsy name), seating the joining player
there with a zero stack. -/
theorem claim_C9_roster_invariant :
    (∀ (inp : HandInput) (r : Hand), parse inp = .ok r →
      r.players.length = r.max_players) ∧
    (∀ (ps : List PPlayer) (line : String) (caps : Caps)
      (seatStr : List Char) (seat : Nat) (occ : PPlayer),
      reMatch joinRE line.toList = some caps →
      capLookup caps "seat" = some seatStr →
      pyNat (String.mk seatStr) = some seat →
      pyGetInt ps ((seat : Int) - 1) = some occ →
      occ.name ≠ "" → occ.name ≠ "Empty Seat " ++ toString seat →
      handlePlayerJoin ps line = ps) ∧
    (∀ (ps : List PPlayer) (line : String) (caps : Caps)
      (nameChars seatStr : List Char) (seat : Nat) (occ : PPlayer),
      reMatch joinRE line.toList = some caps →
      capLookup caps "name" = some nameChars →
      capLookup caps "seat" = some seatStr →
      pyNat (String.mk seatStr) = some seat →
      pyGetInt ps ((seat : Int) - 1) = some occ →
      occ.name = "Empty Seat " ++ toString seat →
      handlePlayerJoin ps line =
        (pySetInt ps ((seat : Int) - 1)
          ⟨String.mk nameChars, ⟨0, 2⟩, seat, none⟩).getD ps) := by
  refine ⟨?_, ?_, ?_⟩
  · intro inp r hok
    obtain ⟨h1, h2, h3, _, _, hp, hr⟩ := parse_ok_inv inp r hok
    obtain ⟨hlen, hmax⟩ := parsePlayers_invariant inp h2 h3 hp
    subst hr
    obtain ⟨l1, l2⟩ := parseRest_players_length inp h3
    rw [l1, l2, hlen, hmax]
  · intro ps line caps seatStr seat occ hm hcs hseat hget hn1 hn2
    unfold handlePlayerJoin
    rw [hm]
    dsimp only
    cases hcn : capLookup caps "name" with
    | none => rfl
    | some nameChars =>
      rw [hcs]
      dsimp only [Option.bind]
      rw [hseat]
      dsimp only
      rw [hget]
      dsimp only
      rw [if_pos ⟨hn1, hn2⟩]
  · intro ps line caps nameChars seatStr seat occ hm hcn hcs hseat hget hph
    unfold handlePlayerJoin
    rw [hm]
    dsimp only
    rw [hcn, hcs]
    dsimp only [Option.bind]
    rw [hseat]
    dsimp only
    rw [hget]
    dsimp only
    rw [if_neg (by simp [hph])]

/-- A transcript (its date in the only form the VERBOSE-compiled header
grammar accepts) whose FLOP section seats a mid-hand join, for claim
C9's witness. -/
def inpC9 : HandInput :=
  { splitted0 := "PokerStars Hand #3: Hold'em No Limit ($0.01/$0.02) - 2020/01/0112:00:00ET\nTable 'T2' 2-max Seat #1 is the button\nSeat 1: A ($2.00 in chips)"
    header := "Table 'T2' 2-max Seat #1 is the button\nSeat 1: A ($2.00 in chips)"
    flop := some "*** FLOP *** [4c Js 7c]\nNewguy joins the table at seat #2" }

/-- The hand record `inpC9` parses to. -/
def handC9 : Hand :=
  match parse inpC9 with
  | .ok h => h
  | .error _ => {}

/-- Claim C9's witness: the roster-length invariant applied to the
concrete transcript `inpC9`, whose flop seats a joining player. -/
theorem claim_C9_witness : handC9.players.length = handC9.max_players :=
  claim_C9_roster_invariant.1 inpC9 handC9 (by rfl)

/-! ## Claim C10: the uncalled-bet recipient name stops at the first
non-word character -/

/-- A successful head candidate settles `firstSome`. -/
theorem firstSome_cons_pos {α : Type} {f : List Char × List Char → Option α}
    {x : List Char × List Char} {xs : List (List Char × List Char)} {r : α}
    (h : f x = some r) : firstSome f (x :: xs) = some r := by
  simp [firstSome, h]

/-- A greedy class repetition's candidate list starts with the maximal
consumption. -/
theorem takesDrops_reverse_cons (s : List Char) (n : Nat) :
    ∃ cands, (takesDrops s n).reverse = ((s.take n).reverse, s.drop n) :: cands := by
  cases n with
  | zero => exact ⟨[], rfl⟩
  | succ m => exact ⟨(takesDrops s m).reverse, by simp [takesDrops]⟩

/-- The amount search of `_parse_uncalled` resolves entirely inside the
concrete prefix `Uncalled bet ($0.40) returned to `, whatever follows:
the leftmost `\((\$?\d+(?:\.\d+)?)\)` match is `($0.40)`. -/
theorem unc_amt_search (tail : List Char) :
    reSearch uncAmtRE ("Uncalled bet ($0.40) returned to ".toList ++ tail) =
      some [("1", "$0.40".toList)] := rfl

/-- The name search of `_parse_uncalled` skips the prefix before `to `:
no earlier position of `Uncalled bet ($0.40) returned ` starts a
`to (\w+)` match. -/
theorem unc_name_skip (tail : List Char) :
    reSearch uncNameRE ("Uncalled bet ($0.40) returned ".toList ++ tail) =
      reSearch uncNameRE tail := rfl

/-- At the `to ` position the name pattern captures exactly the maximal
leading run of word characters of what follows. -/
theorem unc_name_reM (wh : Char) (wt rest : List Char) (c : Char)
    (hwh : isWordChar wh = true) (hwt : wt.all isWordChar = true)
    (hc : isWordChar c = false) :
    reM uncNameRE ('t' :: 'o' :: ' ' :: (wh :: (wt ++ c :: rest))) []
      (fun _ _ cs => some cs) = some [("1", wh :: wt)] := by
  have htw : List.takeWhile isWordChar (wt ++ c :: rest) = wt := by
    rw [List.takeWhile_append_of_pos (by simpa [List.all_eq_true] using hwt)]
    rw [List.takeWhile_cons_of_neg (by simp [hc])]
    simp
  simp only [uncNameRE, reM, plusG]
  simp only [List.isPrefixOf, List.drop, htw, hwh]
  simp only [beq_self_eq_true, Bool.and_self, Bool.and_true, if_true]
  obtain ⟨cands, hcands⟩ := takesDrops_reverse_cons (wt ++ c :: rest) wt.length
  rw [hcands]
  apply firstSome_cons_pos
  rw [List.take_left, List.drop_left]
  simp

/-- The full name search on an uncalled-bet line whose recipient starts
with a word-character run and continues with a non-word character. -/
theorem unc_name_search (wh : Char) (wt rest : List Char) (c : Char)
    (hwh : isWordChar wh = true) (hwt : wt.all isWordChar = true)
    (hc : isWordChar c = false) :
    reSearch uncNameRE
      ("Uncalled bet ($0.40) returned to ".toList ++ ((wh :: wt) ++ c :: rest)) =
      some [("1", wh :: wt)] := by
  have hstep : reSearch uncNameRE
      ("Uncalled bet ($0.40) returned to ".toList ++ ((wh :: wt) ++ c :: rest)) =
      (match reM uncNameRE ('t' :: 'o' :: ' ' :: (wh :: (wt ++ c :: rest))) []
          (fun _ _ cs => some cs) with
        | some cs => some cs
        | none => reSearch uncNameRE ('o' :: ' ' :: (wh :: (wt ++ c :: rest)))) := by
    rfl
  rw [hstep, unc_name_reM wh wt rest c hwh hwt hc]

/-- Claim C10: an uncalled-bet line whose recipient name contains a
character outside the word-character class records as the RETURN
action's player only the maximal leading run of word characters after
`to ` — never the full name — because `_parse_uncalled`'s `to (\w+)`
capture stops at the first non-word character. -/
theorem claim_C10_uncalled_name_truncated (wh : Char) (wt rest : List Char)
    (c : Char) (hwh : isWordChar wh = true) (hwt : wt.all isWordChar = true)
    (hc : isWordChar c = false) :
    parseUncalled (String.mk
        ("Uncalled bet ($0.40) returned to ".toList ++ ((wh :: wt) ++ c :: rest))) =
      some ⟨String.mk (wh :: wt), .RETURN, some ⟨40, 2⟩⟩ ∧
    wh :: wt ≠ (wh :: wt) ++ c :: rest := by
  constructor
  · unfold parseUncalled
    rw [show (String.mk ("Uncalled bet ($0.40) returned to ".toList ++
        ((wh :: wt) ++ c :: rest))).toList =
        "Uncalled bet ($0.40) returned to ".toList ++ ((wh :: wt) ++ c :: rest)
      from rfl]
    rw [unc_amt_search, unc_name_search wh wt rest c hwh hwt hc]
    rfl
  · intro heq
    have := congrArg List.length heq
    simp at this

/-- Claim C10's witness: the recipient `Big Dog` (a space inside the
name) yields a RETURN action for `Big`, not for `Big Dog`. -/
theorem claim_C10_witness :
    parseUncalled (String.mk
        ("Uncalled bet ($0.40) returned to ".toList ++
          (('B' :: "ig".toList) ++ ' ' :: "Dog".toList))) =
      some ⟨String.mk ('B' :: "ig".toList), .RETURN, some ⟨40, 2⟩⟩ ∧
    'B' :: "ig".toList ≠ ('B' :: "ig".toList) ++ ' ' :: "Dog".toList :=
  claim_C10_uncalled_name_truncated 'B' "ig".toList "Dog".toList ' '
    (by decide) (by decide) (by decide)

end PokerStars
